import Mathlib

/-!
Verification of the sigmaInvestorAgent backtest engine.

Shallow embedding of the split-aware benchmark normalizer, the strategy
variants (DCA, BuyHold, Grid, SmileCurve), the chart assembly and the
analytics formulas of `src/main.py` and `src/strategy.py`.  Prices and
cash are modelled as rationals; the annualized-return formula, which uses
a real exponent, is modelled over the reals.
-/

namespace Sigma2Proof

/-! ## Benchmark normalizer (`run_backtest`, src/main.py lines 33-87) -/

/-- The split-ratio table of src/main.py line 52:
`expected_ratios = [-0.5, -0.67, -0.75, -0.8, -0.86, -0.9, -0.95]`. -/
def expected_ratios : List ℚ := [-0.5, -0.67, -0.75, -0.8, -0.86, -0.9, -0.95]

/-- `any(abs(split_return - ratio) < 0.05 for ratio in expected_ratios)`
(src/main.py line 55). -/
def is_likely_split (r : ℚ) : Bool :=
  expected_ratios.any fun q => decide (|r - q| < 0.05)

/-- The per-bar adjustment of src/main.py lines 40-59: a bar is flagged when
its daily return is `< -0.5`; a flagged return matching a split ratio is
replaced by 0, every other return is kept. -/
def adjust_return (r : ℚ) : ℚ :=
  if r < -0.5 ∧ is_likely_split r then 0 else r

/-- Helper for `daily_returns`: returns of a list given the previous close. -/
def dr_go (prev : ℚ) : List ℚ → List ℚ
  | [] => []
  | c :: rest => (c / prev - 1) :: dr_go c rest

/-- `df['Close'].pct_change().fillna(0)` (src/main.py line 35): the first
entry is 0, entry `i` is `close[i]/close[i-1] - 1`. -/
def daily_returns (closes : List ℚ) : List ℚ :=
  match closes with
  | [] => []
  | c :: rest => 0 :: dr_go c rest

/-- The split-adjusted return series used for the benchmark curve. -/
def adjusted_returns (closes : List ℚ) : List ℚ :=
  (daily_returns closes).map adjust_return

/-- Helper for `benchmark_values`: the loop of src/main.py lines 81-87,
`current_value = current_value * (1 + daily_return)` appended per bar. -/
def bench_go (v : ℚ) : List ℚ → List ℚ
  | [] => []
  | r :: rest => (v * (1 + r)) :: bench_go (v * (1 + r)) rest

/-- The benchmark curve of src/main.py lines 75-87: `initial_value` first,
then the compounding of the adjusted returns for indices `1..len-1`. -/
def benchmark_values (cash : ℚ) (closes : List ℚ) : List ℚ :=
  match closes with
  | [] => []
  | _ :: _ => cash :: bench_go cash ((adjusted_returns closes).drop 1)

/-- The normalizer as the claim C1 words it, with the spec's ratio table
{-0.5, -0.667, -0.75, -0.8, -0.857, -0.9, -0.95} in place of the code's. -/
def spec_expected_ratios : List ℚ :=
  [-0.5, -0.667, -0.75, -0.8, -0.857, -0.9, -0.95]

/-- Spec-worded variant of `is_likely_split` over `spec_expected_ratios`. -/
def spec_is_likely_split (r : ℚ) : Bool :=
  spec_expected_ratios.any fun q => decide (|r - q| < 0.05)

/-- Spec-worded variant of `adjust_return`. -/
def spec_adjust_return (r : ℚ) : ℚ :=
  if r < -0.5 ∧ spec_is_likely_split r then 0 else r

/-- Spec-worded variant of `benchmark_values`. -/
def spec_benchmark_values (cash : ℚ) (closes : List ℚ) : List ℚ :=
  match closes with
  | [] => []
  | _ :: _ =>
      cash :: bench_go cash (((daily_returns closes).map spec_adjust_return).drop 1)

/-! ### Length and index lemmas for the normalizer -/

theorem dr_go_length (prev : ℚ) (l : List ℚ) : (dr_go prev l).length = l.length := by
  induction l generalizing prev with
  | nil => rfl
  | cons c rest ih => simp [dr_go, ih]

theorem daily_returns_length (closes : List ℚ) :
    (daily_returns closes).length = closes.length := by
  cases closes with
  | nil => rfl
  | cons c rest => simp [daily_returns, dr_go_length]

theorem adjusted_returns_length (closes : List ℚ) :
    (adjusted_returns closes).length = closes.length := by
  simp [adjusted_returns, daily_returns_length]

theorem bench_go_length (v : ℚ) (rs : List ℚ) : (bench_go v rs).length = rs.length := by
  induction rs generalizing v with
  | nil => rfl
  | cons r rest ih => simp [bench_go, ih]

theorem benchmark_values_length (cash : ℚ) (closes : List ℚ) :
    (benchmark_values cash closes).length = closes.length := by
  cases closes with
  | nil => rfl
  | cons c rest =>
      simp [benchmark_values, bench_go_length, adjusted_returns_length]

theorem getD_drop_one (l : List ℚ) (i : ℕ) (d : ℚ) :
    (l.drop 1).getD i d = l.getD (i + 1) d := by
  cases l with
  | nil => simp
  | cons a rest => simp [List.getD]

theorem getD_map_adjust (l : List ℚ) (i : ℕ) (hi : i < l.length) :
    (l.map adjust_return).getD i 0 = adjust_return (l.getD i 0) := by
  induction l generalizing i with
  | nil => simp at hi
  | cons a rest ih =>
      cases i with
      | zero => simp [List.getD]
      | succ j =>
          simp only [List.map_cons, List.getD_cons_succ]
          exact ih j (by simpa using Nat.lt_of_succ_lt_succ hi)

theorem dr_go_getD (l : List ℚ) (prev : ℚ) (i : ℕ) (hi : i < l.length) :
    (dr_go prev l).getD i 0 = l.getD i 0 / (prev :: l).getD i 0 - 1 := by
  induction l generalizing prev i with
  | nil => simp at hi
  | cons c rest ih =>
      cases i with
      | zero => simp [dr_go, List.getD]
      | succ j =>
          simp only [dr_go, List.getD_cons_succ]
          exact ih c j (by simpa using Nat.lt_of_succ_lt_succ hi)

theorem daily_returns_getD (closes : List ℚ) (i : ℕ) (hi : i + 1 < closes.length) :
    (daily_returns closes).getD (i + 1) 0 = closes.getD (i + 1) 0 / closes.getD i 0 - 1 := by
  cases closes with
  | nil => simp at hi
  | cons c rest =>
      simp only [daily_returns, List.getD_cons_succ]
      have hr : i < rest.length := by simpa using Nat.lt_of_succ_lt_succ hi
      rw [dr_go_getD rest c i hr]

theorem bench_go_chain (rs : List ℚ) (v : ℚ) (i : ℕ) (hi : i < rs.length) :
    (v :: bench_go v rs).getD (i + 1) 0 =
      (v :: bench_go v rs).getD i 0 * (1 + rs.getD i 0) := by
  induction rs generalizing v i with
  | nil => simp at hi
  | cons r rest ih =>
      cases i with
      | zero => simp [bench_go, List.getD]
      | succ j =>
          have hj : j < rest.length := by simpa using Nat.lt_of_succ_lt_succ hi
          have := ih (v * (1 + r)) j hj
          simpa [bench_go, List.getD_cons_succ] using this

theorem is_likely_split_iff (r : ℚ) :
    is_likely_split r = true ↔ ∃ q ∈ expected_ratios, |r - q| < 0.05 := by
  simp [is_likely_split]

/-! ### Claims C1 and C2: the benchmark normalizer -/

/-- C1, amended: the benchmark curve starts at `initial_cash`, compounds the
adjusted returns, `daily_return[i] = close[i]/close[i-1] - 1`, and a return is
zeroed exactly when it is flagged (`< -0.5`) and lies within 0.05 of one of the
CODE's ratios {-0.5, -0.67, -0.75, -0.8, -0.86, -0.9, -0.95} (the claim's
table {-0.5, -0.667, -0.75, -0.8, -0.857, -0.9, -0.95} does not match the
code, see the counterexample). -/
theorem C1_benchmark_normalizer (cash : ℚ) (closes : List ℚ) :
    (benchmark_values cash closes).length = closes.length ∧
    (0 < closes.length → (benchmark_values cash closes).getD 0 0 = cash) ∧
    (∀ i, i + 1 < closes.length →
      (benchmark_values cash closes).getD (i + 1) 0 =
        (benchmark_values cash closes).getD i 0 *
          (1 + (adjusted_returns closes).getD (i + 1) 0)) ∧
    (∀ i, i + 1 < closes.length →
      (daily_returns closes).getD (i + 1) 0 =
        closes.getD (i + 1) 0 / closes.getD i 0 - 1) ∧
    (∀ i, i < closes.length →
      (((daily_returns closes).getD i 0 < -0.5 ∧
          ∃ q ∈ expected_ratios, |(daily_returns closes).getD i 0 - q| < 0.05) →
        (adjusted_returns closes).getD i 0 = 0) ∧
      (¬((daily_returns closes).getD i 0 < -0.5 ∧
          ∃ q ∈ expected_ratios, |(daily_returns closes).getD i 0 - q| < 0.05) →
        (adjusted_returns closes).getD i 0 = (daily_returns closes).getD i 0)) := by
  refine ⟨benchmark_values_length cash closes, ?_, ?_, ?_, ?_⟩
  · intro hpos
    cases closes with
    | nil => simp at hpos
    | cons c rest => simp [benchmark_values, List.getD]
  · intro i hi
    cases closes with
    | nil => simp at hi
    | cons c rest =>
        have hlt : i < ((adjusted_returns (c :: rest)).drop 1).length := by
          rw [List.length_drop, adjusted_returns_length]
          simp only [List.length_cons] at hi ⊢
          omega
        have hchain := bench_go_chain ((adjusted_returns (c :: rest)).drop 1) cash i hlt
        simp only [benchmark_values]
        rw [hchain, getD_drop_one]
  · exact fun i hi => daily_returns_getD closes i hi
  · intro i hi
    have hadj : (adjusted_returns closes).getD i 0 =
        adjust_return ((daily_returns closes).getD i 0) := by
      rw [adjusted_returns]
      exact getD_map_adjust _ i (by rw [daily_returns_length]; exact hi)
    constructor
    · rintro ⟨h1, q, hq, habs⟩
      rw [hadj, adjust_return, if_pos]
      exact ⟨h1, (is_likely_split_iff _).2 ⟨q, hq, habs⟩⟩
    · intro hn
      rw [hadj, adjust_return, if_neg]
      intro hc
      exact hn ⟨hc.1, (is_likely_split_iff _).1 hc.2⟩

/-- Witness for `C1_benchmark_normalizer`: the curve recurrence checked on a
concrete two-bar series with a -60% return (retained: not near any ratio). -/
theorem C1_benchmark_normalizer_witness :
    (0 : ℕ) + 1 < ([100, 40] : List ℚ).length ∧
    (benchmark_values 1000 [100, 40]).getD 1 0 =
      (benchmark_values 1000 [100, 40]).getD 0 0 *
        (1 + (adjusted_returns ([100, 40] : List ℚ)).getD 1 0) :=
  ⟨by norm_num, (C1_benchmark_normalizer 1000 [100, 40]).2.2.1 0 (by norm_num)⟩

/-- Counterexample to C1 as stated: for closes `[1000, 382]` the daily return
is -0.618, which is within 0.05 of the claim's ratio -0.667 but not within
0.05 of any ratio in the code's table, so the code retains the return (curve
value 382) while the claim's formula zeroes it (curve value 1000). -/
theorem C1_counterexample :
    benchmark_values 1000 [1000, 382] = [1000, 382] ∧
    spec_benchmark_values 1000 [1000, 382] = [1000, 1000] ∧
    (382 : ℚ) ≠ 1000 := by
  refine ⟨?_, ?_, by norm_num⟩
  · norm_num [benchmark_values, adjusted_returns, daily_returns, dr_go, bench_go,
      adjust_return, is_likely_split, expected_ratios, abs_lt]
  · norm_num [spec_benchmark_values, daily_returns, dr_go, bench_go,
      spec_adjust_return, spec_is_likely_split, spec_expected_ratios, abs_lt]

/-- C2, amended: a single-day return strictly below -0.50 that lies within
0.05 of -0.5 (e.g. -0.51) is zeroed and the curve is unchanged across that
day; a return of exactly -0.50 is NOT flagged (the flag condition is the
strict `daily_return < -0.5`), so it is retained and the curve halves. -/
theorem C2_exact_half_return (cash c0 c1 : ℚ)
    (h1 : c1 / c0 - 1 < -0.5) (h2 : |c1 / c0 - 1 - (-0.5)| < 0.05) :
    benchmark_values cash [c0, c1] = [cash, cash] := by
  have hflag : c1 / c0 - 1 < -0.5 ∧ is_likely_split (c1 / c0 - 1) = true := by
    refine ⟨h1, (is_likely_split_iff _).2 ⟨-0.5, ?_, h2⟩⟩
    simp [expected_ratios]
  simp [benchmark_values, adjusted_returns, daily_returns, dr_go, bench_go,
    adjust_return, hflag.1, hflag.2]

/-- Witness for `C2_exact_half_return`: closes `[100, 49]` give a -51% return,
flagged and zeroed, so the curve stays at 1000 on the second day. -/
theorem C2_exact_half_return_witness :
    benchmark_values 1000 [100, 49] = [1000, 1000] :=
  C2_exact_half_return 1000 100 49 (by norm_num) (by norm_num [abs_lt])

/-- Counterexample to C2 as stated: a daily return of exactly -0.50 (closes
`[100, 50]`) is not flagged by the code (`-0.5 < -0.5` is false), the adjusted
return stays -0.5, and the curve halves from 1000 to 500 instead of staying
at 1000. -/
theorem C2_counterexample :
    benchmark_values 1000 [100, 50] = [1000, 500] ∧
    adjust_return (-0.5) = -0.5 ∧ ((-0.5 : ℚ) ≠ 0) ∧ ((500 : ℚ) ≠ 1000) := by
  refine ⟨?_, ?_, by norm_num, by norm_num⟩
  · norm_num [benchmark_values, adjusted_returns, daily_returns, dr_go, bench_go,
      adjust_return, is_likely_split, expected_ratios, abs_lt]
  · norm_num [adjust_return]

/-! ## Signal recording and the DCA strategy
(src/strategy.py lines 16-24 and 187-219) -/

/-- A recorded buy/sell signal (`BaseStrategy.buy`, src/strategy.py lines
16-24): the bar's date (modelled as the 1-based bar number) and close price. -/
structure SigRec where
  bar : ℕ
  price : ℚ
deriving DecidableEq

/-- The run-scoped state of the DCA strategy: `total_invested`
(src/strategy.py line 209) and the recorded buy signals. `day_count` is
carried as the bar counter of the fold. -/
structure DCAState where
  total_invested : ℚ
  buy_signals : List SigRec
deriving DecidableEq

/-- `DCA.next` folded over the bars (src/strategy.py lines 211-219):
`day_count += 1`; when `day_count % invest_period == 0` buy
`invest_amount / close` shares and add `invest_amount` to the total.
Python's `%` raises `ZeroDivisionError` when `invest_period` is 0, which
surfaces while the first bar is processed; Python's `%` takes the sign of
the divisor, which is `Int.fmod`. -/
def dca_go (period : ℤ) (amount : ℚ) : ℕ → DCAState → List ℚ → Except Unit DCAState
  | _, s, [] => .ok s
  | n, s, c :: rest =>
      if period = 0 then .error ()
      else if Int.fmod ((n + 1 : ℕ) : ℤ) period = 0 then
        dca_go period amount (n + 1)
          ⟨s.total_invested + amount, s.buy_signals ++ [⟨n + 1, c⟩]⟩ rest
      else dca_go period amount (n + 1) s rest

/-- A full DCA run from a fresh strategy state. -/
def dca_run (period : ℤ) (amount : ℚ) (closes : List ℚ) : Except Unit DCAState :=
  dca_go period amount 0 ⟨0, []⟩ closes

/-- The bar numbers in `n+1 .. n+len` at which DCA invests. -/
def dca_buy_bars (period : ℤ) (n len : ℕ) : List ℕ :=
  (List.range' (n + 1) len).filter fun k => decide (Int.fmod (k : ℤ) period = 0)

theorem dca_buy_bars_succ (period : ℤ) (n len : ℕ) :
    dca_buy_bars period n (len + 1) =
      (if Int.fmod ((n + 1 : ℕ) : ℤ) period = 0 then [n + 1] else []) ++
        dca_buy_bars period (n + 1) len := by
  by_cases hz : Int.fmod ((n + 1 : ℕ) : ℤ) period = 0
  · rw [dca_buy_bars, List.range'_succ, List.filter_cons_of_pos (by simpa using hz),
      if_pos hz]
    rfl
  · rw [dca_buy_bars, List.range'_succ, List.filter_cons_of_neg (by simpa using hz),
      if_neg hz]
    rfl

theorem dca_go_spec (period : ℤ) (hp : period ≠ 0) (amount : ℚ) :
    ∀ (closes : List ℚ) (n : ℕ) (s : DCAState),
      ∃ s', dca_go period amount n s closes = .ok s' ∧
        s'.total_invested =
          s.total_invested + amount * ((dca_buy_bars period n closes.length).length : ℚ) ∧
        s'.buy_signals.map SigRec.bar =
          s.buy_signals.map SigRec.bar ++ dca_buy_bars period n closes.length := by
  intro closes
  induction closes with
  | nil =>
      intro n s
      refine ⟨s, rfl, ?_, ?_⟩ <;> simp [dca_buy_bars]
  | cons c rest ih =>
      intro n s
      rw [List.length_cons]
      by_cases hz : Int.fmod ((n + 1 : ℕ) : ℤ) period = 0
      · obtain ⟨s', hrun, htot, hmap⟩ :=
          ih (n + 1) ⟨s.total_invested + amount, s.buy_signals ++ [⟨n + 1, c⟩]⟩
        refine ⟨s', ?_, ?_, ?_⟩
        · simp only [dca_go, if_neg hp, if_pos hz]
          exact hrun
        · rw [htot, dca_buy_bars_succ period n rest.length, if_pos hz]
          simp only [List.singleton_append, List.length_cons]
          push_cast
          ring
        · rw [hmap, dca_buy_bars_succ period n rest.length, if_pos hz]
          simp
      · obtain ⟨s', hrun, htot, hmap⟩ := ih (n + 1) s
        refine ⟨s', ?_, ?_, ?_⟩
        · simp only [dca_go, if_neg hp, if_neg hz]
          exact hrun
        · rw [htot, dca_buy_bars_succ period n rest.length, if_neg hz,
            List.nil_append]
        · rw [hmap, dca_buy_bars_succ period n rest.length, if_neg hz,
            List.nil_append]

/-- C3: on any 20-bar series, DCA with `invest_period=5, invest_amount=100`
buys exactly 4 times, at bars 5, 10, 15 and 20, and `total_invested = 400`. -/
theorem C3_dca_twenty_bars (closes : List ℚ) (h : closes.length = 20) :
    ∃ s', dca_run 5 100 closes = .ok s' ∧
      s'.buy_signals.map SigRec.bar = [5, 10, 15, 20] ∧
      s'.buy_signals.length = 4 ∧
      s'.total_invested = 400 := by
  obtain ⟨s', hrun, htot, hmap⟩ := dca_go_spec 5 (by norm_num) 100 closes 0 ⟨0, []⟩
  rw [h] at htot hmap
  have hbars : dca_buy_bars 5 0 20 = [5, 10, 15, 20] := by decide
  refine ⟨s', hrun, ?_, ?_, ?_⟩
  · simpa [hbars] using hmap
  · have := congrArg List.length hmap
    simpa [hbars] using this
  · rw [htot, hbars]
    norm_num

/-- Witness for `C3_dca_twenty_bars` on a concrete constant-price series. -/
theorem C3_dca_twenty_bars_witness :
    (List.replicate 20 (1 : ℚ)).length = 20 ∧
    ∃ s', dca_run 5 100 (List.replicate 20 (1 : ℚ)) = .ok s' ∧
      s'.buy_signals.map SigRec.bar = [5, 10, 15, 20] ∧
      s'.buy_signals.length = 4 ∧
      s'.total_invested = 400 :=
  ⟨by simp, C3_dca_twenty_bars (List.replicate 20 (1 : ℚ)) (by simp)⟩

/-! ## Strategy dispatch (`main`, src/main.py lines 199-213) -/

/-- The attributes of the strategy module that `getattr` can resolve
(src/strategy.py): the eleven tradable strategy classes, the non-variant
`BaseStrategy` base class, the module-level `import backtrader as bt`, and
the interpreter's module dunders. -/
inductive ModuleAttr
  | SmaCross | BuyHold | RSI | MACD | Boll | Turtle | Grid
  | DualThrust | DCA | ValueAveraging | SmileCurve
  | BaseStrategy
  | btImport
  | dunder (s : String)
deriving DecidableEq

/-- The tradable strategy variants of §4.2 among the module's attributes. -/
def variant_attrs : List ModuleAttr :=
  [.SmaCross, .BuyHold, .RSI, .MACD, .Boll, .Turtle, .Grid,
   .DualThrust, .DCA, .ValueAveraging, .SmileCurve]

/-- Module-level dunder attributes every imported Python module carries. -/
def dunder_names : List String :=
  ["__name__", "__doc__", "__package__", "__loader__", "__spec__",
   "__file__", "__cached__", "__builtins__"]

/-- `getattr(__import__("strategy", fromlist=[strategy]), strategy)`
(src/main.py line 202): resolves every name in the strategy module's
namespace — the eleven strategy classes, `BaseStrategy`, the imported `bt`,
and the module dunders — and raises `AttributeError` only for a name
outside that namespace. -/
def getattr_strategy (name : String) : Option ModuleAttr :=
  match name with
  | "SmaCross" => some .SmaCross
  | "BuyHold" => some .BuyHold
  | "RSI" => some .RSI
  | "MACD" => some .MACD
  | "Boll" => some .Boll
  | "Turtle" => some .Turtle
  | "Grid" => some .Grid
  | "DualThrust" => some .DualThrust
  | "DCA" => some .DCA
  | "ValueAveraging" => some .ValueAveraging
  | "SmileCurve" => some .SmileCurve
  | "BaseStrategy" => some .BaseStrategy
  | "bt" => some .btImport
  | _ => if name ∈ dunder_names then some (.dunder name) else none

/-- The `main` handler (src/main.py lines 199-213): resolve the strategy
name on the strategy module, then run the backtest with whatever attribute
came back; any exception is caught and turned into a status-400 failure
carrying no partial result. -/
def main_model {α : Type} (name : String) (run : ModuleAttr → Except String α) :
    Except String α :=
  match getattr_strategy name with
  | none => .error "AttributeError"
  | some a => run a

/-- A backtest over `BaseStrategy` itself (src/strategy.py lines 4-49):
the class defines no `next`, so the inherited default `next` is a no-op on
every bar — the run consumes all bars, records no buy or sell signal, and
completes normally with a full result. The inherited no-op `next` is
backtrader behaviour (backtrader is not under src/); per §4.2's contract a
strategy emits zero or more intents per bar, here always zero. -/
def base_strategy_run (closes : List ℚ) : List SigRec × List SigRec :=
  closes.foldl (fun s _ => s) ([], [])

/-- C8, amended: a selector naming NO attribute of the strategy module
fails before any bar is processed (the outcome does not depend on the
backtest at all) and propagates as a terminal failure with no partial
result. But the reflective `getattr` also resolves non-variant module
attributes — the selector "BaseStrategy" yields a completed no-op run with
a full result — and parameter values are not validated before the run (see
the counterexample). -/
theorem C8_unknown_strategy {α : Type} (name : String)
    (h : getattr_strategy name = none) (run : ModuleAttr → Except String α) :
    main_model name run = .error "AttributeError" := by
  simp [main_model, h]

/-- Witness for `C8_unknown_strategy` at the name "Foo", which is neither a
class of the strategy module nor one of its dunder attributes. -/
theorem C8_unknown_strategy_witness :
    main_model "Foo" (fun _ => Except.ok (0 : ℕ)) = .error "AttributeError" :=
  C8_unknown_strategy "Foo" (by decide) (fun _ => Except.ok (0 : ℕ))

/-- Counterexample to C8 as stated, in both halves. (1) A selector that
does not name a known strategy variant need not fail at all: "BaseStrategy"
is an attribute of the strategy module but not one of the §4.2 variants, so
`getattr` succeeds and the backtest completes a full no-op run with a
200-result instead of failing before any bar. (2) An out-of-range parameter
does not make the run fail before any bar is processed: DCA with
`invest_period = -5` COMPLETES successfully — Python's `5 % -5 == 0`
triggers a buy at bar 5 — and with `invest_period = 0` the
`ZeroDivisionError` is raised only while the first bar is being processed,
not before. -/
theorem C8_counterexample :
    getattr_strategy "BaseStrategy" = some ModuleAttr.BaseStrategy ∧
    (∀ k ∈ variant_attrs, ModuleAttr.BaseStrategy ≠ k) ∧
    main_model "BaseStrategy"
        (fun a => if a = ModuleAttr.BaseStrategy
          then Except.ok (base_strategy_run [1, 1, 1])
          else Except.error "unused") =
      Except.ok ([], []) ∧
    dca_run (-5) 100 [1, 1, 1, 1, 1] =
      Except.ok ⟨100, [⟨5, 1⟩]⟩ ∧
    dca_run 0 100 [1] = Except.error () := by
  have h1 : ¬(Int.fmod (1 : ℤ) (-5) = 0) := by decide
  have h2 : ¬(Int.fmod (2 : ℤ) (-5) = 0) := by decide
  have h3 : ¬(Int.fmod (3 : ℤ) (-5) = 0) := by decide
  have h4 : ¬(Int.fmod (4 : ℤ) (-5) = 0) := by decide
  have h5 : Int.fmod (5 : ℤ) (-5) = 0 := by decide
  refine ⟨by decide, by decide, rfl, ?_, by simp [dca_run, dca_go]⟩
  norm_num [dca_run, dca_go, h1, h2, h3, h4, h5]

/-! ## Order emission by Grid and SmileCurve
(src/strategy.py lines 141-167 and 267-328) -/

/-- An order intent submitted by a strategy via `self.buy` / `self.sell`. -/
inductive Order
  | buyO (size : ℚ)
  | sellO (size : ℚ)
deriving DecidableEq

/-- The requested size of an order. -/
def Order.size : Order → ℚ
  | buyO s => s
  | sellO s => s

/-- Grid parameters (src/strategy.py line 142). -/
structure GridParams where
  step : ℚ
  position_size : ℚ
deriving DecidableEq

/-- The market/portfolio state `Grid.next` reads: broker cash, the current
position size, the remembered `last_price` and the bar's close. -/
structure GridInput where
  cash : ℚ
  pos : ℚ
  last_price : Option ℚ
  price : ℚ
deriving DecidableEq

/-- `Grid.next` (src/strategy.py lines 146-167): on the first bar only
remember the price; otherwise buy `cash * position_size / price` when flat,
sell `min(trade_size, position.size)` when the price rose a step, buy again
when it fell a step. Returns the submitted orders and the new `last_price`. -/
def grid_next (p : GridParams) (g : GridInput) : List Order × Option ℚ :=
  match g.last_price with
  | none => ([], some g.price)
  | some lp =>
      let trade_size := g.cash * p.position_size / g.price
      if g.pos = 0 then ([.buyO trade_size], some g.price)
      else if g.price ≥ lp * (1 + p.step) then
        ([.sellO (min trade_size g.pos)], some g.price)
      else if g.price ≤ lp * (1 - p.step) then
        ([.buyO trade_size], some g.price)
      else ([], some lp)

/-- `SmileCurve.next`, the invest branch (src/strategy.py lines 294-328):
bucket the close's position within the trailing high/low range and buy
`base_amount * multiplier / close`; in the top band sell 10% of a positive
position instead. -/
def smile_next_orders (base_amount max_multiplier pos highest lowest close : ℚ) :
    List Order :=
  let price_range := highest - lowest
  let price_position :=
    if price_range > 0 then (close - lowest) / price_range else 0.5
  if price_position ≤ 0.2 then
    [.buyO (base_amount * max_multiplier / close)]
  else if price_position ≤ 0.4 then
    [.buyO (base_amount * (max_multiplier * 0.8) / close)]
  else if price_position ≤ 0.6 then
    [.buyO (base_amount * 1 / close)]
  else if price_position ≤ 0.8 then
    [.buyO (base_amount * 0.5 / close)]
  else if pos > 0 then [.sellO (pos * 0.1)]
  else []

/-- C4, amended: under nonnegative cash/position and positive prices neither
Grid nor SmileCurve ever submits an order of negative size — but there is no
guard against size 0: Grid submits a zero-size buy whenever its cash is 0
(see the counterexample), so "never executes an order whose size resolves to
≤ 0" does not hold. -/
theorem C4_no_negative_order_size :
    (∀ (p : GridParams) (g : GridInput), 0 ≤ p.position_size → 0 ≤ g.cash →
      0 ≤ g.pos → 0 < g.price → ∀ o ∈ (grid_next p g).1, 0 ≤ o.size) ∧
    (∀ base_amount max_multiplier pos highest lowest close : ℚ,
      0 ≤ base_amount → 0 ≤ max_multiplier → 0 ≤ pos → 0 < close →
      ∀ o ∈ smile_next_orders base_amount max_multiplier pos highest lowest close,
        0 ≤ o.size) := by
  constructor
  · intro p g hps hcash hpos hprice o ho
    have hts : 0 ≤ g.cash * p.position_size / g.price :=
      div_nonneg (mul_nonneg hcash hps) hprice.le
    rcases hlp : g.last_price with _ | lp
    · simp [grid_next, hlp] at ho
    · simp only [grid_next, hlp] at ho
      split at ho
      · simp only [List.mem_singleton] at ho
        subst ho
        exact hts
      · split at ho
        · simp only [List.mem_singleton] at ho
          subst ho
          exact le_min hts hpos
        · split at ho
          · simp only [List.mem_singleton] at ho
            subst ho
            exact hts
          · simp at ho
  · intro base_amount max_multiplier pos highest lowest close hb hm hp hc o ho
    simp only [smile_next_orders] at ho
    repeat' split at ho
    all_goals
      first
        | exact absurd ho (List.not_mem_nil o)
        | (rw [List.mem_singleton] at ho
           subst ho
           simp only [Order.size]
           positivity)

/-- Witness for `C4_no_negative_order_size`: a Grid buy of size 10 and a
SmileCurve top-band sell of size 0.5, both at concrete states. -/
theorem C4_no_negative_order_size_witness :
    (0 : ℚ) ≤ (Order.buyO (10 : ℚ)).size ∧ (0 : ℚ) ≤ (Order.sellO (1/2 : ℚ)).size :=
  ⟨C4_no_negative_order_size.1 ⟨1/20, 1/10⟩ ⟨1000, 0, some 10, 10⟩
      (by norm_num) (by norm_num) (by norm_num) (by norm_num)
      (Order.buyO 10) (by norm_num [grid_next]),
   C4_no_negative_order_size.2 1 1 5 10 0 9
      (by norm_num) (by norm_num) (by norm_num) (by norm_num)
      (Order.sellO (1/2)) (by norm_num [smile_next_orders])⟩

/-- Counterexample to C4 as stated: with zero cash and no position, Grid
submits a buy order whose size resolves to exactly 0 (`trade_size =
0 * 0.1 / 10 = 0`), and `BaseStrategy` applies no size guard before
executing it, contradicting "never executes an order whose size resolves to
≤ 0". -/
theorem C4_counterexample :
    (grid_next ⟨1/20, 1/10⟩ ⟨0, 0, some 10, 10⟩).1 = [Order.buyO 0] ∧
    (Order.buyO 0).size ≤ 0 := by
  constructor
  · norm_num [grid_next]
  · norm_num [Order.size]

/-- C9: whenever Grid sells, the submitted size is exactly
`min(trade_size, position.size)` (src/strategy.py line 161), hence never
larger than the position currently held. -/
theorem C9_grid_sell_bounded (p : GridParams) (g : GridInput) (lp : ℚ)
    (hlp : g.last_price = some lp) (hpos : g.pos ≠ 0)
    (hup : g.price ≥ lp * (1 + p.step)) :
    (grid_next p g).1 =
      [Order.sellO (min (g.cash * p.position_size / g.price) g.pos)] ∧
    min (g.cash * p.position_size / g.price) g.pos ≤ g.pos := by
  refine ⟨?_, min_le_right _ _⟩
  simp [grid_next, hlp, hpos, hup]

/-- Witness for `C9_grid_sell_bounded`: price 110 over last price 100 with a
5% step triggers a sell of min(100/110, 10) = 10/11 ≤ 10. -/
theorem C9_grid_sell_bounded_witness :
    (grid_next ⟨1/20, 1/10⟩ ⟨1000, 10, some 100, 110⟩).1 =
      [Order.sellO (min ((1000 : ℚ) * (1/10) / 110) 10)] ∧
    min ((1000 : ℚ) * (1/10) / 110) 10 ≤ 10 :=
  C9_grid_sell_bounded ⟨1/20, 1/10⟩ ⟨1000, 10, some 100, 110⟩ 100
    rfl (by norm_num) (by norm_num)

/-! ## BuyHold (src/strategy.py lines 71-75) -/

/-- The portfolio state a BuyHold run carries: cash, position and the
recorded signals. -/
structure BHState where
  cash : ℚ
  pos : ℚ
  buys : List SigRec
  sells : List SigRec
deriving DecidableEq

/-- `BuyHold.next` (src/strategy.py lines 71-75): when flat, buy
`calculate_position_size() = cash * position_pct / close` (lines 46-49).
Modelled from the spec: order execution is performed by the external broker
(backtrader, not under src/); §4.3 specifies a BUY executes at the current
bar's close, increasing the position by the order size and decreasing cash
by size × price, and the base class records the signal. -/
def buyhold_next (pct : ℚ) (bar : ℕ) (close : ℚ) (s : BHState) : BHState :=
  if s.pos = 0 then
    let size := s.cash * pct / close
    ⟨s.cash - size * close, s.pos + size, s.buys ++ [⟨bar, close⟩], s.sells⟩
  else s

/-- BuyHold folded over the bars, numbering them from 1. -/
def bh_go (pct : ℚ) : ℕ → BHState → List ℚ → BHState
  | _, s, [] => s
  | n, s, c :: rest => bh_go pct (n + 1) (buyhold_next pct (n + 1) c s) rest

/-- A full BuyHold run from initial cash and an empty portfolio. -/
def buyhold_run (pct cash : ℚ) (closes : List ℚ) : BHState :=
  bh_go pct 0 ⟨cash, 0, [], []⟩ closes

theorem bh_go_stable (pct : ℚ) :
    ∀ (closes : List ℚ) (n : ℕ) (s : BHState), s.pos ≠ 0 →
      bh_go pct n s closes = s := by
  intro closes
  induction closes with
  | nil => intro n s _; rfl
  | cons c rest ih =>
      intro n s h
      have hnext : buyhold_next pct (n + 1) c s = s := by
        simp [buyhold_next, h]
      rw [bh_go, hnext]
      exact ih (n + 1) s h

/-- C6: on any non-empty series of positive closes with positive initial
cash, BuyHold with `position_pct = 1.0` records exactly one buy signal, at
bar 1, and no sell signal. -/
theorem C6_buyhold_single_buy (cash : ℚ) (closes : List ℚ) (hne : closes ≠ [])
    (hcash : 0 < cash) (hcl : ∀ c ∈ closes, 0 < c) :
    (buyhold_run 1 cash closes).buys.map SigRec.bar = [1] ∧
    (buyhold_run 1 cash closes).sells = [] := by
  cases closes with
  | nil => exact absurd rfl hne
  | cons c rest =>
      have hc : 0 < c := hcl c (List.mem_cons_self c rest)
      have hstep : buyhold_next 1 1 c ⟨cash, 0, [], []⟩ =
          ⟨cash - cash * 1 / c * c, 0 + cash * 1 / c, [⟨1, c⟩], []⟩ := by
        simp [buyhold_next]
      have hpos' : (0 : ℚ) + cash * 1 / c ≠ 0 := by
        have : 0 < cash / c := div_pos hcash hc
        simpa using this.ne'
      have : buyhold_run 1 cash (c :: rest) =
          ⟨cash - cash * 1 / c * c, 0 + cash * 1 / c, [⟨1, c⟩], []⟩ := by
        rw [buyhold_run, bh_go, hstep]
        exact bh_go_stable 1 rest 1 _ hpos'
      rw [this]
      exact ⟨by simp, rfl⟩

/-- Witness for `C6_buyhold_single_buy` on the one-bar series `[2]` with
initial cash 100. -/
theorem C6_buyhold_single_buy_witness :
    (buyhold_run 1 100 [2]).buys.map SigRec.bar = [1] ∧
    (buyhold_run 1 100 [2]).sells = [] :=
  C6_buyhold_single_buy 100 [2] (by simp) (by norm_num)
    (by intro c hcm; rw [List.mem_singleton] at hcm; rw [hcm]; norm_num)

/-! ## Chart assembly (src/main.py lines 101-122 and 187-194) -/

/-- The comprehension of src/main.py line 105: keep the broker observer
entries that are neither NaN (modelled `none`) nor 0. -/
def filter_values (arr : List (Option ℚ)) : List ℚ :=
  arr.filterMap fun x =>
    match x with
    | none => none
    | some v => if v = 0 then none else some v

/-- src/main.py lines 102-111: the strategy value series; `none` models the
IndexError/AttributeError path (line 109), and an empty filtered series is
replaced by `[cash]` (lines 107-108). -/
def value_series_init (cash : ℚ) (raw : Option (List (Option ℚ))) : List ℚ :=
  match raw with
  | none => [cash]
  | some arr =>
      let v := filter_values arr
      if v.isEmpty then [cash] else v

/-- Python's `lst[s:]` for an integer `s`: a negative start counts from the
end and clamps at 0. -/
def pySliceFrom {α : Type} (l : List α) (s : ℤ) : List α :=
  if 0 ≤ s then l.drop s.toNat else l.drop ((l.length : ℤ) + s).toNat

/-- Python's `lst[-n:]` for a natural `n`: since `-0 == 0`, `n = 0` yields
the WHOLE list (this is the `[-min_len:]` quirk of src/main.py lines
121-122); otherwise the last `min n len` elements. -/
def pyTailSlice {α : Type} (l : List α) (n : ℕ) : List α :=
  if n = 0 then l else l.drop (l.length - n)

/-- `dates = df.index[len(df) - len(value_series):]` (src/main.py line
115-116). -/
def raw_dates (dfDates : List ℕ) (vs : List ℚ) : List ℕ :=
  pySliceFrom dfDates ((dfDates.length : ℤ) - vs.length)

/-- `chart.dates` after the defensive `dates[-min_len:]` truncation of
src/main.py lines 119-122. -/
def chart_dates (dfDates : List ℕ) (vs : List ℚ) : List ℕ :=
  if (raw_dates dfDates vs).length ≠ vs.length then
    pyTailSlice (raw_dates dfDates vs) (min (raw_dates dfDates vs).length vs.length)
  else raw_dates dfDates vs

/-- `chart.strategy_values` after the matching `value_series[-min_len:]`
truncation of src/main.py lines 119-122. -/
def chart_values (dfDates : List ℕ) (vs : List ℚ) : List ℚ :=
  if (raw_dates dfDates vs).length ≠ vs.length then
    pyTailSlice vs (min (raw_dates dfDates vs).length vs.length)
  else vs

theorem value_series_init_ne_nil (cash : ℚ) (raw : Option (List (Option ℚ))) :
    value_series_init cash raw ≠ [] := by
  match raw with
  | none => simp [value_series_init]
  | some arr =>
      simp only [value_series_init]
      split
      · simp
      · next h => simpa [List.isEmpty_iff] using h

theorem length_pySliceFrom {α : Type} (l : List α) (s : ℤ) :
    (pySliceFrom l s).length =
      l.length - (if 0 ≤ s then s.toNat else ((l.length : ℤ) + s).toNat) := by
  rw [pySliceFrom]
  split <;> simp

theorem length_pyTailSlice {α : Type} (l : List α) (n : ℕ) :
    (pyTailSlice l n).length = if n = 0 then l.length else l.length - (l.length - n) := by
  rw [pyTailSlice]
  split <;> simp

theorem raw_dates_length_of_le (dfDates : List ℕ) (vs : List ℚ)
    (hle : vs.length ≤ dfDates.length) :
    (raw_dates dfDates vs).length = vs.length := by
  have hs : (0 : ℤ) ≤ (dfDates.length : ℤ) - vs.length := by omega
  rw [raw_dates, length_pySliceFrom, if_pos hs]
  omega

theorem raw_dates_length_of_gt (dfDates : List ℕ) (vs : List ℚ)
    (hgt : dfDates.length < vs.length) (hdf : 1 ≤ dfDates.length) :
    1 ≤ (raw_dates dfDates vs).length ∧
    (raw_dates dfDates vs).length < vs.length ∧
    (raw_dates dfDates vs).length ≤ dfDates.length := by
  have hs : ¬ (0 : ℤ) ≤ (dfDates.length : ℤ) - vs.length := by omega
  rw [raw_dates, length_pySliceFrom, if_neg hs]
  omega

theorem chart_spec (dfDates : List ℕ) (vs : List ℚ) (hvs : vs ≠ [])
    (hdf : 1 ≤ dfDates.length) :
    (chart_dates dfDates vs).length = (chart_values dfDates vs).length ∧
    (chart_dates dfDates vs).length ≤ dfDates.length ∧
    (chart_values dfDates vs).length ≤ dfDates.length := by
  have hvl : 1 ≤ vs.length := List.length_pos.mpr hvs
  by_cases hle : vs.length ≤ dfDates.length
  · have hdates := raw_dates_length_of_le dfDates vs hle
    rw [chart_dates, chart_values, if_neg (by rw [hdates]; exact fun h => h rfl),
      if_neg (by rw [hdates]; exact fun h => h rfl)]
    exact ⟨hdates, by omega, by omega⟩
  · have hdlen := raw_dates_length_of_gt dfDates vs (by omega) hdf
    have hne : (raw_dates dfDates vs).length ≠ vs.length := by omega
    rw [chart_dates, chart_values, if_pos hne, if_pos hne]
    have ht1 := length_pyTailSlice (raw_dates dfDates vs)
      (min (raw_dates dfDates vs).length vs.length)
    have ht2 := length_pyTailSlice vs (min (raw_dates dfDates vs).length vs.length)
    rw [ht1, ht2]
    refine ⟨?_, ?_, ?_⟩ <;> split <;> omega

theorem chart_values_ne_nil (dfDates : List ℕ) (vs : List ℚ) (hvs : vs ≠ []) :
    chart_values dfDates vs ≠ [] := by
  have hvl : 1 ≤ vs.length := List.length_pos.mpr hvs
  rw [chart_values]
  split
  · rw [← List.length_pos, length_pyTailSlice]
    split <;> omega
  · exact hvs

/-- C5: once a run completes (which in the code requires a non-empty input
series, since `df.index[0]` at src/main.py line 147 raises otherwise), the
chart's `dates` and `strategy_values` have equal lengths, both at most the
length of the input DataSeries — for every raw broker value series,
including unreadable (`none`) or all-NaN/zero ones. -/
theorem C5_chart_lengths (dfDates : List ℕ) (cash : ℚ)
    (raw : Option (List (Option ℚ))) (hdf : 1 ≤ dfDates.length) :
    (chart_dates dfDates (value_series_init cash raw)).length =
      (chart_values dfDates (value_series_init cash raw)).length ∧
    (chart_dates dfDates (value_series_init cash raw)).length ≤ dfDates.length ∧
    (chart_values dfDates (value_series_init cash raw)).length ≤ dfDates.length :=
  chart_spec dfDates (value_series_init cash raw)
    (value_series_init_ne_nil cash raw) hdf

/-- Witness for `C5_chart_lengths`: a 3-bar series whose broker values are
all NaN or zero, so the substituted `[cash]` backs a 1-point chart. -/
theorem C5_chart_lengths_witness :
    1 ≤ ([10, 11, 12] : List ℕ).length ∧
    ((chart_dates [10, 11, 12]
        (value_series_init 1000 (some [none, some 0, none]))).length =
      (chart_values [10, 11, 12]
        (value_series_init 1000 (some [none, some 0, none]))).length ∧
     (chart_dates [10, 11, 12]
        (value_series_init 1000 (some [none, some 0, none]))).length ≤
       ([10, 11, 12] : List ℕ).length ∧
     (chart_values [10, 11, 12]
        (value_series_init 1000 (some [none, some 0, none]))).length ≤
       ([10, 11, 12] : List ℕ).length) :=
  ⟨by norm_num,
   C5_chart_lengths [10, 11, 12] 1000 (some [none, some 0, none]) (by norm_num)⟩

/-- C10: the strategy value series is substituted by `[cash]` whenever the
broker series cannot be read (`none`) or filters down to empty (all NaN or
zero), and in every case the assembled `chart.strategy_values` is
non-empty. -/
theorem C10_strategy_values_nonempty (dfDates : List ℕ) (cash : ℚ)
    (raw : Option (List (Option ℚ))) :
    (value_series_init cash none = [cash]) ∧
    (∀ arr, raw = some arr → filter_values arr = [] →
      value_series_init cash raw = [cash]) ∧
    chart_values dfDates (value_series_init cash raw) ≠ [] := by
  refine ⟨rfl, ?_, ?_⟩
  · rintro arr rfl hemp
    simp [value_series_init, hemp]
  · exact chart_values_ne_nil dfDates (value_series_init cash raw)
      (value_series_init_ne_nil cash raw)

/-- Witness for `C10_strategy_values_nonempty`: a broker series of one NaN
and one zero entry filters to empty, `[cash]` is substituted, and the chart
value list is non-empty even for an empty input DataSeries. -/
theorem C10_strategy_values_nonempty_witness :
    value_series_init (1000 : ℚ) (some [none, some 0]) = [1000] ∧
    chart_values [] (value_series_init (1000 : ℚ) (some [none, some 0])) ≠ [] :=
  ⟨(C10_strategy_values_nonempty [] 1000 (some [none, some 0])).2.1
      [none, some 0] rfl (by norm_num [filter_values]),
   (C10_strategy_values_nonempty [] 1000 (some [none, some 0])).2.2⟩

/-! ## Summary return formulas (src/main.py lines 142-156) -/

/-- `total_ret = (final_value / cash) - 1` (src/main.py line 144). -/
noncomputable def total_return (final_value cash : ℝ) : ℝ :=
  final_value / cash - 1

/-- src/main.py lines 146-156: `days = (end_date - start_date).days`,
`years = days / 365.25`, and
`annual_ret = ((1 + total_ret) ** (1 / years)) - 1` when `years > 0`,
otherwise `0.0`. -/
noncomputable def annual_return (total_ret : ℝ) (days : ℤ) : ℝ :=
  if (days : ℝ) / 365.25 > 0 then
    (1 + total_ret) ^ ((1 : ℝ) / ((days : ℝ) / 365.25)) - 1
  else 0

/-- C7: the summary's total return is `final_value/cash - 1`, and the
annualized return equals `(1 + total_return)^(365.25/elapsed_days) - 1`,
with 0 whenever `elapsed_days ≤ 0` — the code's `(1/years)` exponent with
`years = days/365.25` is exactly the claim's `365.25/days`. -/
theorem C7_summary_returns (final_value cash total_ret : ℝ) (days : ℤ) :
    total_return final_value cash = final_value / cash - 1 ∧
    annual_return total_ret days =
      (if 0 < days then (1 + total_ret) ^ ((365.25 : ℝ) / (days : ℝ)) - 1 else 0) := by
  refine ⟨rfl, ?_⟩
  rw [annual_return]
  by_cases hd : 0 < days
  · have hdR : (0 : ℝ) < (days : ℝ) := by exact_mod_cast hd
    have hy : (0 : ℝ) < (days : ℝ) / 365.25 := by positivity
    rw [if_pos hy, if_pos hd, one_div_div]
  · have hdR : (days : ℝ) ≤ 0 := by exact_mod_cast not_lt.mp hd
    have hy : ¬ ((days : ℝ) / 365.25 > 0) := by
      rw [not_lt]
      exact div_nonpos_iff.mpr (Or.inr ⟨hdR, by norm_num⟩)
    rw [if_neg hy, if_neg hd]

end Sigma2Proof
